import Mathlib

/-!
Shallow embedding of the limepacker SSL certificate issuance engine
(package `ssl`: key policy and generation, certificate request parsing,
host classification, template building, CA and leaf issuance), translated
from the Go source.  External library calls (Go stdlib `crypto`, `pem`,
`net`, `mail`, `url`, `yaml`) are modelled by oracle inputs that record the
observable outcome of each call; every repository function is translated
statement by statement.
-/

set_option autoImplicit false

namespace Limepacker

/-- Outcome of running a Go function: a runtime panic, a returned non-nil
error, or a normal result.  Go's `log.Panic()` and runtime faults (nil
pointer dereference) are `panics`; `return nil, err` is `err`. -/
inductive GoResult (α : Type) where
  | panics (msg : String)
  | err (msg : String)
  | ok (a : α)
deriving DecidableEq, Repr

/-- `KeyAlgorithm` from key.go: `keyAlgorithmNotSet = iota; ECDSAKey; RSAKey`. -/
inductive KeyAlgorithm where
  | notSet
  | ecdsa
  | rsa
deriving DecidableEq, Repr

def minRSAKeySize : Int := 2048

def maxRSAKeySize : Int := 8192

/-- `ParseKeyAlgorithm` from key.go: "ecdsa" and "rsa" parse, anything else
is an error `unknown key type: <in>`. -/
def ParseKeyAlgorithm (s : String) : GoResult KeyAlgorithm :=
  if s = "ecdsa" then .ok .ecdsa
  else if s = "rsa" then .ok .rsa
  else .err ("unknown key type: " ++ s)

/-- `KeyAlgorithm.DefaultSize` from key.go.  The `notSet` case hits
`log.Panic()` in Go; it is unreachable from every modelled call site, which
all pass the `ecdsa` or `rsa` constant. -/
def KeyAlgorithm.DefaultSize : KeyAlgorithm → Int
  | .ecdsa => 256
  | .rsa => 4096
  | .notSet => 0

/-- The `fmt.Errorf` message for an invalid ECDSA key size. -/
def ecdsaSizeErr (size : Int) : String :=
  "invalid ecdsa key size " ++ toString size ++
    " - key size must be either 256, 384 or 521"

/-- The `fmt.Errorf` message for an invalid RSA key size. -/
def rsaSizeErr (size : Int) : String :=
  "invalid rsa key size " ++ toString size ++
    " - key size must be between " ++ toString minRSAKeySize ++
    " and " ++ toString maxRSAKeySize

/-- `KeyAlgorithm.ValidKeySize` from key.go, including its exact error
messages (`fmt.Errorf` with the offending size interpolated). -/
def KeyAlgorithm.ValidKeySize : KeyAlgorithm → Int → GoResult Unit
  | .ecdsa, size =>
    if ¬(size = 0 ∨ size = 256 ∨ size = 384 ∨ size = 521) then
      .err (ecdsaSizeErr size)
    else .ok ()
  | .rsa, size =>
    if ¬(size = 0 ∨ (minRSAKeySize ≤ size ∧ size ≤ maxRSAKeySize)) then
      .err (rsaSizeErr size)
    else .ok ()
  | .notSet, _ => .panics "unexpected key algorithm"

/-- Elliptic curves that can back an `ecdsa.PrivateKey`; `otherCurve`
stands for any curve other than P-256/P-384/P-521 (e.g. P-224). -/
inductive Curve where
  | p256
  | p384
  | p521
  | otherCurve
deriving DecidableEq, Repr

/-- A Go `crypto.PrivateKey` handle as far as this package inspects it:
an ECDSA key carries its curve, an RSA key carries its modulus bit length,
and `otherPriv` is any other concrete type (e.g. ed25519 out of PKCS#8). -/
inductive PrivKey where
  | ecdsaPriv (curve : Curve)
  | rsaPriv (modulusBits : Nat)
  | otherPriv
deriving DecidableEq, Repr

/-- Go `rsa.PrivateKey.Size()`: the modulus size in BYTES,
`(N.BitLen() + 7) / 8`. -/
def rsaPrivSize (modulusBits : Nat) : Int := Int.ofNat ((modulusBits + 7) / 8)

namespace x509

def RSA : Nat := 1

def ECDSA : Nat := 3

def SHA256WithRSA : Nat := 4

def SHA384WithRSA : Nat := 5

def SHA512WithRSA : Nat := 6

def ECDSAWithSHA256 : Nat := 10

def ECDSAWithSHA384 : Nat := 11

def ECDSAWithSHA512 : Nat := 12

def KeyUsageDigitalSignature : Nat := 1

def KeyUsageContentCommitment : Nat := 2

def KeyUsageKeyEncipherment : Nat := 4

def KeyUsageDataEncipherment : Nat := 8

def KeyUsageKeyAgreement : Nat := 16

def KeyUsageCertSign : Nat := 32

def KeyUsageCRLSign : Nat := 64

def KeyUsageEncipherOnly : Nat := 128

def KeyUsageDecipherOnly : Nat := 256

def ExtKeyUsageAny : Nat := 0

def ExtKeyUsageServerAuth : Nat := 1

def ExtKeyUsageClientAuth : Nat := 2

def ExtKeyUsageCodeSigning : Nat := 3

def ExtKeyUsageEmailProtection : Nat := 4

def ExtKeyUsageIPSECEndSystem : Nat := 5

def ExtKeyUsageIPSECTunnel : Nat := 6

def ExtKeyUsageIPSECUser : Nat := 7

def ExtKeyUsageTimeStamping : Nat := 8

def ExtKeyUsageOCSPSigning : Nat := 9

def ExtKeyUsageMicrosoftServerGatedCrypto : Nat := 10

def ExtKeyUsageNetscapeServerGatedCrypto : Nat := 11

end x509

/-- `CertificateName` from csr.go (fields C, ST, L, O, OU, serialNumber). -/
structure CertificateName where
  c : String
  st : String
  l : String
  o : String
  ou : String
  serialNumber : String
deriving DecidableEq, Repr

/-- Go `strings.TrimSpace`: drop leading and trailing whitespace.  (Go
trims by `unicode.IsSpace`; the ASCII whitespace classes of
`Char.isWhitespace` cover every character the modelled inputs use.) -/
def trimSpace (s : String) : String :=
  String.mk (((s.data.dropWhile Char.isWhitespace).reverse.dropWhile
    Char.isWhitespace).reverse)

/-- `CertificateName.trim` from csr.go: `strings.TrimSpace` on every field. -/
def CertificateName.trim (n : CertificateName) : CertificateName :=
  { c := trimSpace n.c, st := trimSpace n.st, l := trimSpace n.l,
    o := trimSpace n.o, ou := trimSpace n.ou,
    serialNumber := trimSpace n.serialNumber }

/-- `CertificateName.Empty` from csr.go: true iff C, ST, L, O and OU are all
empty (the serial number is not part of the emptiness check). -/
def CertificateName.Empty (n : CertificateName) : Bool :=
  n.c.length + n.st.length + n.l.length + n.o.length + n.ou.length == 0

/-- `CertificateRequest` from csr.go, as it stands after `yaml.Unmarshal`. -/
structure CertificateRequest where
  algorithm : String
  size : Int
  commonName : String
  names : List CertificateName
  hosts : List String
  serialNumber : String
deriving DecidableEq, Repr

/-- The fields of `pkix.Name` that csr.go's `subject` populates. -/
structure PkixName where
  country : List String
  organization : List String
  organizationalUnit : List String
  locality : List String
  province : List String
  serialNumber : String
  commonName : String
deriving DecidableEq, Repr

/-- One loop iteration of `subject` in csr.go.  The five branches are
translated verbatim; note that the source's third branch reads
`subject.Province = append(subject.Locality, n.L)`, so a non-empty L is
written into `province` with `locality` (never assigned anywhere in the
function) as the base slice. -/
def subjectStep (acc : PkixName) (n : CertificateName) : PkixName :=
  let acc := if n.c.length > 0 then { acc with country := acc.country ++ [n.c] } else acc
  let acc := if n.st.length > 0 then { acc with province := acc.province ++ [n.st] } else acc
  let acc := if n.l.length > 0 then { acc with province := acc.locality ++ [n.l] } else acc
  let acc := if n.o.length > 0 then { acc with organization := acc.organization ++ [n.o] } else acc
  if n.ou.length > 0 then
    { acc with organizationalUnit := acc.organizationalUnit ++ [n.ou] }
  else acc

/-- `subject` from csr.go: start from a zero `pkix.Name` carrying the
request's common name, fold the loop body over `csr.Names`, then set the
serial number from the request. -/
def CertificateRequest.subject (csr : CertificateRequest) : PkixName :=
  let init : PkixName :=
    { country := [], organization := [], organizationalUnit := [],
      locality := [], province := [], serialNumber := "",
      commonName := csr.commonName }
  let out := csr.names.foldl subjectStep init
  { out with serialNumber := csr.serialNumber }

/-- Go `time.Time` as this package observes it: the instant in nanoseconds
plus whether the location has been set to UTC by `.UTC()`. -/
structure GoTime where
  ns : Int
  isUTC : Bool
deriving DecidableEq, Repr

def minuteNs : Int := 60 * 1000000000

def hourNs : Int := 60 * minuteNs

/-- `DefaultCertificateExpiration` from cert.go: `10 * 8760 * time.Hour`. -/
def DefaultCertificateExpiration : Int := 10 * 8760 * hourNs

/-- The fields of `x509.Certificate` that cert.go's template populates.
IP addresses, e-mail addresses and URIs are stored as the normalized
strings the Go stdlib parsers return. -/
structure Certificate where
  subject : PkixName
  publicKey : PrivKey
  publicKeyAlgorithm : Nat
  signatureAlgorithm : Nat
  ipAddresses : List String
  emailAddresses : List String
  uris : List String
  dnsNames : List String
  serialNumber : Int
  notBefore : GoTime
  notAfter : GoTime
  keyUsage : Nat
  extKeyUsage : List Nat
  basicConstraintsValid : Bool
  isCA : Bool
deriving DecidableEq, Repr

/-- DER bytes, modelled by the outcome of each x509 parser the package can
apply to them: `x509.ParsePKCS8PrivateKey`, `x509.ParsePKCS1PrivateKey`
(an RSA key with the given modulus bit length), `x509.ParseECPrivateKey`
(an ECDSA key on the given curve) and `x509.ParseCertificate`. -/
structure Der where
  pkcs8 : Option PrivKey
  pkcs1 : Option Nat
  sec1 : Option Curve
  asCert : Option Certificate
deriving DecidableEq, Repr

/-- A PEM block: its type header and payload bytes. -/
structure PemBlock where
  type : String
  bytes : Der
deriving DecidableEq, Repr

/-- A byte string viewed through `pem.Decode`: either no PEM block can be
decoded from it (`pem.Decode` returns nil) or it carries a block. -/
inductive PemBytes where
  | undecodable
  | encoded (b : PemBlock)
deriving DecidableEq, Repr

/-- `pem.Decode` (first return value; the rest of the input is unused). -/
def pemDecode : PemBytes → Option PemBlock
  | .undecodable => none
  | .encoded b => some b

/-- `pem.EncodeToMemory`. -/
def pemEncodeToMemory (b : PemBlock) : PemBytes := .encoded b

/-- The PEM block type of an encoded byte string, if any. -/
def pemType : PemBytes → Option String
  | .undecodable => none
  | .encoded b => some b.type

/-- The `baseKey` data shared by `ecdsaKey` and `rsaKey` in key.go.  The
`algorithm` field also records which concrete struct (`ecdsaKey` or
`rsaKey`) the interface value holds, fixing the method dispatch. -/
structure Key where
  algorithm : KeyAlgorithm
  size : Int
  encoded : PemBytes
  privateKey : PrivKey
deriving DecidableEq, Repr

def Key.Size (k : Key) : Int := k.size

def Key.Algorithm (k : Key) : KeyAlgorithm := k.algorithm

def Key.Encoded (k : Key) : PemBytes := k.encoded

def Key.PrivateKey (k : Key) : PrivKey := k.privateKey

/-- `baseKey.PublicKey` from key.go: type switch on the private key; an
unexpected concrete type hits `log.Panic()`.  The public half of a key is
represented by the same handle. -/
def Key.PublicKey (k : Key) : GoResult PrivKey :=
  match k.privateKey with
  | .ecdsaPriv c => .ok (.ecdsaPriv c)
  | .rsaPriv b => .ok (.rsaPriv b)
  | .otherPriv => .panics "unexpected key algorithm"

/-- `ecdsaKey.PublicKeyAlgorithm` / `rsaKey.PublicKeyAlgorithm` from
key.go, dispatched on the concrete struct.  A `Key` with `notSet` is never
built, so that branch is arbitrary. -/
def Key.PublicKeyAlgorithm (k : Key) : Nat :=
  match k.algorithm with
  | .ecdsa => x509.ECDSA
  | .rsa => x509.RSA
  | .notSet => 0

/-- `ecdsaKey.SignatureAlgorithm` / `rsaKey.SignatureAlgorithm` from
key.go; sizes outside the expected ranges hit `log.Panic()`. -/
def Key.SignatureAlgorithm (k : Key) : GoResult Nat :=
  match k.algorithm with
  | .ecdsa =>
    if k.size = 256 then .ok x509.ECDSAWithSHA256
    else if k.size = 384 then .ok x509.ECDSAWithSHA384
    else if k.size = 521 then .ok x509.ECDSAWithSHA512
    else .panics "unexpected key size"
  | .rsa =>
    if k.size ≥ 4096 then .ok x509.SHA512WithRSA
    else if k.size ≥ 3072 then .ok x509.SHA384WithRSA
    else if k.size ≥ 2048 then .ok x509.SHA256WithRSA
    else .panics "unexpected key size"
  | .notSet => .panics "unexpected key algorithm"

/-- The outcomes of the Go stdlib host parsers on a given string:
`net.ParseIP` (the parsed IP, normalized), `mail.ParseAddress` (the
`.Address` field of the result) and `url.ParseRequestURI` (the parsed URI
rendered back to a string). -/
structure NetOracle where
  parseIP : String → Option String
  parseAddress : String → Option String
  parseRequestURI : String → Option String

/-- The outcomes of the nondeterministic / external calls a single issuance
run performs: `rand.Int` for the serial number (`none` = read error),
`ecdsa.GenerateKey` / `x509.MarshalECPrivateKey` / `rsa.GenerateKey`
success and the resulting DER bytes, the host parsers, and whether
`x509.CreateCertificate` succeeds. -/
structure Env where
  serial : Option Int
  ecdsaGenOk : Bool
  ecMarshalOk : Bool
  ecDer : Der
  rsaGenOk : Bool
  rsaDer : Der
  net : NetOracle
  createCertOk : Bool

/-- `GenerateKey` from key.go: validate the size, then dispatch on the
algorithm; the default branch hits `log.Panic()`. -/
def GenerateKey (env : Env) (algorithm : KeyAlgorithm) (size : Int) : GoResult Key :=
  match algorithm.ValidKeySize size with
  | .panics m => .panics m
  | .err m => .err m
  | .ok _ =>
    match algorithm with
    | .ecdsa => generateECDSAKey env size
    | .rsa => generateRSAKey env size
    | .notSet => .panics "unexpected key algorithm"
where
  /-- `generateECDSAKey` from key.go: a zero size resolves to the ECDSA
  default, the curve is selected from the resolved size (any other size
  hits `log.Panic()`), the key is generated, SEC1-marshalled and wrapped
  in an `EC PRIVATE KEY` PEM block. -/
  generateECDSAKey (env : Env) (size : Int) : GoResult Key :=
    let size := if size = 0 then KeyAlgorithm.ecdsa.DefaultSize else size
    let curveR : GoResult Curve :=
      if size = 256 then .ok .p256
      else if size = 384 then .ok .p384
      else if size = 521 then .ok .p521
      else .panics ("unexpected key size " ++ toString size)
    match curveR with
    | .panics m => .panics m
    | .err m => .err m
    | .ok curve =>
      if env.ecdsaGenOk = false then .err "ecdsa key generation failed"
      else if env.ecMarshalOk = false then .err "ec private key marshal failed"
      else .ok { algorithm := .ecdsa, size := size,
                 encoded := pemEncodeToMemory { type := "EC PRIVATE KEY", bytes := env.ecDer },
                 privateKey := .ecdsaPriv curve }
  /-- `generateRSAKey` from key.go: a zero size resolves to the RSA
  default, the key is generated with the resolved size as modulus bit
  length, PKCS#1-marshalled and wrapped in an `RSA PRIVATE KEY` PEM
  block.  (`x509.MarshalPKCS1PrivateKey` cannot fail; the `if err != nil`
  after it in the source re-checks the stale generation error.) -/
  generateRSAKey (env : Env) (size : Int) : GoResult Key :=
    let size := if size = 0 then KeyAlgorithm.rsa.DefaultSize else size
    if env.rsaGenOk = false then .err "rsa key generation failed"
    else .ok { algorithm := .rsa, size := size,
               encoded := pemEncodeToMemory { type := "RSA PRIVATE KEY", bytes := env.rsaDer },
               privateKey := .rsaPriv size.toNat }

/-- `getCurveSize` from key.go: P-256, P-384 and P-521 map to their bit
sizes, any other curve falls back to the ECDSA default size. -/
def getCurveSize (c : Curve) : Int :=
  match c with
  | .p256 => 256
  | .p384 => 384
  | .p521 => 521
  | .otherCurve => KeyAlgorithm.ecdsa.DefaultSize

/-- The type switch at the end of `parsePrivateKey` in key.go: an RSA key
stores `priv.Size()` (the modulus size in bytes) as the key size, an ECDSA
key stores `getCurveSize(priv.Curve)`, and any other concrete type is the
`unknown private key type` error. -/
def parsePrivateKeyClassify (key : PrivKey) (keyPEM : PemBytes) : GoResult Key :=
  match key with
  | .rsaPriv bits =>
    .ok { algorithm := .rsa, size := rsaPrivSize bits, encoded := keyPEM,
          privateKey := .rsaPriv bits }
  | .ecdsaPriv curve =>
    .ok { algorithm := .ecdsa, size := getCurveSize curve, encoded := keyPEM,
          privateKey := .ecdsaPriv curve }
  | .otherPriv => .err "unknown private key type"

/-- `parsePrivateKey` from key.go.  The source ignores the possibility
that `pem.Decode` returns nil (`p, _ := pem.Decode(keyPEM)` followed by
`p.Bytes`), so an input without a decodable PEM block is a nil-pointer
dereference panic.  Otherwise the DER bytes are tried as PKCS#8, then
PKCS#1, then SEC1/EC; if all three fail the `cannot parse private key`
error is returned. -/
def parsePrivateKey (keyPEM : PemBytes) : GoResult Key :=
  match pemDecode keyPEM with
  | none => .panics "runtime error: invalid memory address or nil pointer dereference"
  | some p =>
    match p.bytes.pkcs8 with
    | some key => parsePrivateKeyClassify key keyPEM
    | none =>
      match p.bytes.pkcs1 with
      | some bits => parsePrivateKeyClassify (.rsaPriv bits) keyPEM
      | none =>
        match p.bytes.sec1 with
        | some curve => parsePrivateKeyClassify (.ecdsaPriv curve) keyPEM
        | none => .err "cannot parse private key"

/-- `certificateHosts` from hosts.go. -/
structure certificateHosts where
  DNSNames : List String
  EmailAddresses : List String
  IPAddresses : List String
  URIs : List String
deriving DecidableEq, Repr

/-- The loop of `parseHosts` in hosts.go: per host, try `net.ParseIP`,
then `mail.ParseAddress`, then `url.ParseRequestURI`; anything left is a
DNS name.  Each match appends to the corresponding output list. -/
def parseHostsAux (o : NetOracle) (hosts : List String) (acc : certificateHosts) :
    certificateHosts :=
  match hosts with
  | [] => acc
  | host :: rest =>
    match o.parseIP host with
    | some ip => parseHostsAux o rest { acc with IPAddresses := acc.IPAddresses ++ [ip] }
    | none =>
      match o.parseAddress host with
      | some email =>
        parseHostsAux o rest { acc with EmailAddresses := acc.EmailAddresses ++ [email] }
      | none =>
        match o.parseRequestURI host with
        | some uri => parseHostsAux o rest { acc with URIs := acc.URIs ++ [uri] }
        | none => parseHostsAux o rest { acc with DNSNames := acc.DNSNames ++ [host] }

/-- `parseHosts` from hosts.go: classify `csr.Hosts` starting from four
empty lists. -/
def CertificateRequest.parseHosts (csr : CertificateRequest) (o : NetOracle) :
    certificateHosts :=
  parseHostsAux o csr.hosts
    { DNSNames := [], EmailAddresses := [], IPAddresses := [], URIs := [] }

/-- The `keyUsage` lookup table from cert.go. -/
def keyUsage (u : String) : Option Nat :=
  if u = "signing" then some x509.KeyUsageDigitalSignature
  else if u = "digital signature" then some x509.KeyUsageDigitalSignature
  else if u = "content commitment" then some x509.KeyUsageContentCommitment
  else if u = "key encipherment" then some x509.KeyUsageKeyEncipherment
  else if u = "key agreement" then some x509.KeyUsageKeyAgreement
  else if u = "data encipherment" then some x509.KeyUsageDataEncipherment
  else if u = "cert sign" then some x509.KeyUsageCertSign
  else if u = "crl sign" then some x509.KeyUsageCRLSign
  else if u = "encipher only" then some x509.KeyUsageEncipherOnly
  else if u = "decipher only" then some x509.KeyUsageDecipherOnly
  else none

/-- The `extKeyUsage` lookup table from cert.go (`"s/mime"` is an alias
for email protection). -/
def extKeyUsage (u : String) : Option Nat :=
  if u = "any" then some x509.ExtKeyUsageAny
  else if u = "server auth" then some x509.ExtKeyUsageServerAuth
  else if u = "client auth" then some x509.ExtKeyUsageClientAuth
  else if u = "code signing" then some x509.ExtKeyUsageCodeSigning
  else if u = "email protection" then some x509.ExtKeyUsageEmailProtection
  else if u = "s/mime" then some x509.ExtKeyUsageEmailProtection
  else if u = "ipsec end system" then some x509.ExtKeyUsageIPSECEndSystem
  else if u = "ipsec tunnel" then some x509.ExtKeyUsageIPSECTunnel
  else if u = "ipsec user" then some x509.ExtKeyUsageIPSECUser
  else if u = "timestamping" then some x509.ExtKeyUsageTimeStamping
  else if u = "ocsp signing" then some x509.ExtKeyUsageOCSPSigning
  else if u = "microsoft sgc" then some x509.ExtKeyUsageMicrosoftServerGatedCrypto
  else if u = "netscape sgc" then some x509.ExtKeyUsageNetscapeServerGatedCrypto
  else none

/-- The loop of `sortUsages` in cert.go: a name found in the key-usage
table is OR-ed into the bitmask; otherwise, a name found in the
extended-key-usage table is appended; anything else is skipped. -/
def sortUsagesAux (usages : List String) (ku : Nat) (eku : List Nat) : Nat × List Nat :=
  match usages with
  | [] => (ku, eku)
  | u :: rest =>
    match keyUsage u with
    | some kuse => sortUsagesAux rest (ku ||| kuse) eku
    | none =>
      match extKeyUsage u with
      | some ekuse => sortUsagesAux rest ku (eku ++ [ekuse])
      | none => sortUsagesAux rest ku eku

/-- `sortUsages` from cert.go. -/
def sortUsages (usages : List String) : Nat × List Nat := sortUsagesAux usages 0 []

/-- `validateKey` from key.go: parse the algorithm name, then validate the
size against it. -/
def validateKey (algorithm : String) (size : Int) : GoResult Unit :=
  match ParseKeyAlgorithm algorithm with
  | .panics m => .panics m
  | .err m => .err m
  | .ok a => a.ValidKeySize size

/-- The name-filtering loop of `ParseCertificateRequest` in csr.go: trim
every `CertificateName` and keep, in order, those that are non-empty
after trimming. -/
def filteredNames (ns : List CertificateName) : List CertificateName :=
  ns.foldl (fun acc n =>
    let t := n.trim
    if t.Empty then acc else acc ++ [t]) []

/-- `ParseCertificateRequest` from csr.go.  The input is a byte string
viewed through `yaml.Unmarshal`: `none` means the unmarshal failed,
`some csr` is the raw decoded request.  After the key validation, the
common name and serial number are trimmed, empty names are dropped, hosts
are trimmed, and the request is rejected if the common name is empty and
no names remain. -/
def ParseCertificateRequest (input : Option CertificateRequest) :
    GoResult CertificateRequest :=
  match input with
  | none => .err "yaml: unmarshal errors"
  | some csr0 =>
    match validateKey csr0.algorithm csr0.size with
    | .panics m => .panics m
    | .err m => .err m
    | .ok _ =>
      let names := filteredNames csr0.names
      let csr : CertificateRequest :=
        { csr0 with commonName := trimSpace csr0.commonName,
                    serialNumber := trimSpace csr0.serialNumber,
                    names := names,
                    hosts := csr0.hosts.map trimSpace }
      if csr.commonName = "" ∧ names = [] then
        .err "no subject information provided"
      else .ok csr

/-- `generateKey` (method on `CertificateRequest`) from csr.go. -/
def CertificateRequest.generateKey (csr : CertificateRequest) (env : Env) : GoResult Key :=
  match ParseKeyAlgorithm csr.algorithm with
  | .panics m => .panics m
  | .err m => .err m
  | .ok a => GenerateKey env a csr.size

/-- `generateCertificateTemplate` from cert.go: parse the request, default
a zero expiration to ten years (`expires.Seconds() == 0` holds exactly for
the zero duration), draw a random serial, generate the key, classify the
hosts, resolve the usage names (rejecting an empty resolution), and build
the template.  `now` is the instant of `time.Now()` in nanoseconds. -/
def generateCertificateTemplate (env : Env) (csrData : Option CertificateRequest)
    (expires : Int) (usage : List String) (isCA : Bool) (now : Int) :
    GoResult (Certificate × Key) :=
  match ParseCertificateRequest csrData with
  | .panics m => .panics m
  | .err m => .err m
  | .ok csr =>
    let expires := if expires = 0 then DefaultCertificateExpiration else expires
    match env.serial with
    | none => .err "rand: read failed"
    | some serialNumber =>
      match csr.generateKey env with
      | .panics m => .panics m
      | .err m => .err m
      | .ok key =>
        let hosts := csr.parseHosts env.net
        let ku := (sortUsages usage).1
        let eku := (sortUsages usage).2
        if ku = 0 ∧ eku = [] then .err "no key usage(s) specified"
        else
          match key.PublicKey with
          | .panics m => .panics m
          | .err m => .err m
          | .ok pub =>
            match key.SignatureAlgorithm with
            | .panics m => .panics m
            | .err m => .err m
            | .ok sigAlg =>
              .ok ({ subject := csr.subject,
                     publicKey := pub,
                     publicKeyAlgorithm := key.PublicKeyAlgorithm,
                     signatureAlgorithm := sigAlg,
                     ipAddresses := hosts.IPAddresses,
                     emailAddresses := hosts.EmailAddresses,
                     uris := hosts.URIs,
                     dnsNames := hosts.DNSNames,
                     serialNumber := serialNumber,
                     notBefore := { ns := now - 5 * minuteNs, isUTC := true },
                     notAfter := { ns := now + expires, isUTC := true },
                     keyUsage := ku,
                     extKeyUsage := eku,
                     basicConstraintsValid := true,
                     isCA := isCA }, key)

/-- The record of a successful `x509.CreateCertificate` call: the template,
the parent certificate (whose subject becomes the issued certificate's
issuer), the public key placed in the certificate and the private key that
signed it.  The Go function serializes this to DER; the structured record
is kept instead of opaque bytes. -/
structure SignedCert where
  template : Certificate
  parent : Certificate
  pub : PrivKey
  signer : PrivKey
deriving DecidableEq, Repr

/-- `x509.CreateCertificate`, as an oracle: it either fails or returns the
record of its arguments. -/
def createCertificate (env : Env) (template parent : Certificate)
    (pub signer : PrivKey) : GoResult SignedCert :=
  if env.createCertOk then
    .ok { template := template, parent := parent, pub := pub, signer := signer }
  else .err "x509: certificate creation failed"

/-- `GenerateCA` from cert.go: build a template with usage
`["cert sign", "crl sign"]` and `isCA = true`, then sign it with itself
(`x509.CreateCertificate(rand, template, template, key.PublicKey(),
key.PrivateKey())`).  Go returns the certificate PEM and `key.Encoded()`;
the signed-certificate record and the key are returned here, the key's
`.encoded` field being the returned key PEM. -/
def GenerateCA (env : Env) (csrData : Option CertificateRequest)
    (expires : Int) (now : Int) : GoResult (SignedCert × Key) :=
  match generateCertificateTemplate env csrData expires ["cert sign", "crl sign"] true now with
  | .panics m => .panics m
  | .err m => .err m
  | .ok (template, key) =>
    match key.PublicKey with
    | .panics m => .panics m
    | .err m => .err m
    | .ok pub =>
      match createCertificate env template template pub key.privateKey with
      | .panics m => .panics m
      | .err m => .err m
      | .ok cert => .ok (cert, key)

/-- `Generate` from cert.go: build a leaf template (`isCA = false`), decode
the CA certificate PEM (`p, _ := pem.Decode(ca)` followed by `p.Bytes`:
an undecodable CA PEM is a nil-pointer dereference panic), parse it, load
the CA private key via `parsePrivateKey`, and sign the leaf template with
the CA certificate as parent and the CA key as signer. -/
def Generate (env : Env) (csrData : Option CertificateRequest)
    (ca caKey : PemBytes) (expires : Int) (usage : List String) (now : Int) :
    GoResult (SignedCert × Key) :=
  match generateCertificateTemplate env csrData expires usage false now with
  | .panics m => .panics m
  | .err m => .err m
  | .ok (template, key) =>
    match pemDecode ca with
    | none => .panics "runtime error: invalid memory address or nil pointer dereference"
    | some p =>
      match p.bytes.asCert with
      | none => .err "x509: malformed certificate"
      | some caCert =>
        match parsePrivateKey caKey with
        | .panics m => .panics m
        | .err m => .err m
        | .ok caPrivateKey =>
          match key.PublicKey with
          | .panics m => .panics m
          | .err m => .err m
          | .ok pub =>
            match createCertificate env template caCert pub caPrivateKey.privateKey with
            | .panics m => .panics m
            | .err m => .err m
            | .ok cert => .ok (cert, key)

/-- DER bytes that no parser accepts. -/
def emptyDer : Der := { pkcs8 := none, pkcs1 := none, sec1 := none, asCert := none }

/-- A host-parser oracle under which no string is an IP, e-mail or URI. -/
def emptyNet : NetOracle :=
  { parseIP := fun _ => none, parseAddress := fun _ => none,
    parseRequestURI := fun _ => none }

/-- An environment in which every external call succeeds. -/
def sampleEnv : Env :=
  { serial := some 7, ecdsaGenOk := true, ecMarshalOk := true, ecDer := emptyDer,
    rsaGenOk := true, rsaDer := emptyDer, net := emptyNet, createCertOk := true }

/-- A minimal valid request: ECDSA P-256 with only a common name. -/
def sampleCsr : CertificateRequest :=
  { algorithm := "ecdsa", size := 256, commonName := "test.example.com",
    names := [], hosts := [], serialNumber := "" }

/-- The key `GenerateKey sampleEnv .ecdsa 0` produces. -/
def sampleECKey : Key :=
  { algorithm := .ecdsa, size := 256,
    encoded := .encoded { type := "EC PRIVATE KEY", bytes := emptyDer },
    privateKey := .ecdsaPriv .p256 }

/-- The template of a leaf run of `generateCertificateTemplate` on
`sampleEnv` / `sampleCsr` with zero expiration, usage `["cert sign"]` and
`now = 1000`. -/
def sampleTemplate : Certificate :=
  { subject := { country := [], organization := [], organizationalUnit := [],
                 locality := [], province := [], serialNumber := "",
                 commonName := "test.example.com" },
    publicKey := .ecdsaPriv .p256, publicKeyAlgorithm := 3, signatureAlgorithm := 10,
    ipAddresses := [], emailAddresses := [], uris := [], dnsNames := [],
    serialNumber := 7,
    notBefore := { ns := -299999999000, isUTC := true },
    notAfter := { ns := 315360000000001000, isUTC := true },
    keyUsage := 32, extKeyUsage := [], basicConstraintsValid := true, isCA := false }

/-- The template `GenerateCA` builds on `sampleEnv` / `sampleCsr` with zero
expiration and `now = 1000`: same as `sampleTemplate` except for the CA
usage set and `isCA`. -/
def sampleCATemplate : Certificate :=
  { sampleTemplate with keyUsage := 96, isCA := true }

/-- The signed self-signed CA certificate of that `GenerateCA` run. -/
def sampleCASigned : SignedCert :=
  { template := sampleCATemplate, parent := sampleCATemplate,
    pub := .ecdsaPriv .p256, signer := .ecdsaPriv .p256 }

/-- A CA certificate PEM whose block parses as `sampleCATemplate`. -/
def caCertPem : PemBytes :=
  .encoded { type := "CERTIFICATE",
             bytes := { pkcs8 := none, pkcs1 := none, sec1 := none,
                        asCert := some sampleCATemplate } }

/-- A CA key PEM whose DER parses as a SEC1 P-256 key. -/
def caKeyPem : PemBytes :=
  .encoded { type := "EC PRIVATE KEY",
             bytes := { pkcs8 := none, pkcs1 := none, sec1 := some .p256,
                        asCert := none } }

/-- A key PEM whose DER is a PKCS#1 RSA private key with a 4096-bit
modulus. -/
def rsa4096Pem : PemBytes :=
  .encoded { type := "RSA PRIVATE KEY",
             bytes := { pkcs8 := none, pkcs1 := some 4096, sec1 := none,
                        asCert := none } }

/-- The repository test's request: one name with all five subject fields
set (C=CA, ST=QC, L=Montreal, O=test org, OU=test org unit). -/
def subjectBugCsr : CertificateRequest :=
  { algorithm := "ecdsa", size := 384, commonName := "test.example.com",
    names := [{ c := "CA", st := "QC", l := "Montreal", o := "test org",
                ou := "test org unit", serialNumber := "" }],
    hosts := [], serialNumber := "" }

/-- The host-parser outcomes of the Go stdlib on the four strings of the
repository's `TestParseHosts` scenario: `net.ParseIP` succeeds exactly on
`10.1.0.1`; `mail.ParseAddress` succeeds exactly on `admin@example.com`
(the other three contain no `@` / parse as no address) and returns that
address; `url.ParseRequestURI` succeeds exactly on `https://example.com`
(`example.com` is rejected because it is neither an absolute URI nor an
absolute path). -/
def hostOracle : NetOracle :=
  { parseIP := fun s => if s = "10.1.0.1" then some "10.1.0.1" else none,
    parseAddress := fun s => if s = "admin@example.com" then some "admin@example.com" else none,
    parseRequestURI := fun s => if s = "https://example.com" then some "https://example.com" else none }

/-- The request of the repository's `TestParseHosts`. -/
def hostTestCsr : CertificateRequest :=
  { algorithm := "ecdsa", size := 384, commonName := "test.example.com",
    names := [],
    hosts := ["10.1.0.1", "admin@example.com", "https://example.com", "example.com"],
    serialNumber := "" }

/-- The repository test's `testCSREmptyNames` request after YAML decoding:
no common name and a single name whose only content is whitespace. -/
def csrEmptyNames : CertificateRequest :=
  { algorithm := "ecdsa", size := 384, commonName := "",
    names := [{ c := " ", st := "", l := "", o := "", ou := "", serialNumber := "" }],
    hosts := [], serialNumber := "" }

/-- `Key.PublicKey` never returns a Go error value: it either succeeds or
panics on an unexpected concrete key type. -/
theorem publicKey_not_err (k : Key) (m : String) : k.PublicKey ≠ .err m := by
  unfold Key.PublicKey
  cases k.privateKey <;> simp

/-- `Key.SignatureAlgorithm` never returns a Go error value: it either
succeeds or panics on an unexpected size or algorithm. -/
theorem signatureAlgorithm_not_err (k : Key) (m : String) :
    k.SignatureAlgorithm ≠ .err m := by
  obtain ⟨a, s, e, p⟩ := k
  cases a <;> simp only [Key.SignatureAlgorithm] <;> (repeat' split) <;> simp

/-- C1.  The claim says each non-empty L lands in the subject's Locality
list and each non-empty ST in its Province list.  On the repository's own
test name (C=CA, ST=QC, L=Montreal, O=test org, OU=test org unit) the
code instead leaves Locality empty and makes Province equal to
["Montreal"], dropping "QC": the source's L-branch assigns
`subject.Province = append(subject.Locality, n.L)`. -/
theorem subject_locality_misassigned :
    subjectBugCsr.subject =
      { country := ["CA"], organization := ["test org"],
        organizationalUnit := ["test org unit"], locality := [],
        province := ["Montreal"], serialNumber := "",
        commonName := "test.example.com" } ∧
    subjectBugCsr.subject.locality = [] ∧
    subjectBugCsr.subject.province ≠ ["QC"] := by
  refine ⟨by decide, by decide, by decide⟩

/-- C2.  The claim says `ParsePrivateKey` returns an EncodingError on an
input whose PEM envelope cannot be decoded and that no panic is reachable
from external input, and likewise for `Generate`'s CA PEM inputs.  In
fact `parsePrivateKey` and `Generate` both dereference the nil result of
`pem.Decode` without a check, so an undecodable key PEM, an undecodable
CA certificate PEM and an undecodable CA key PEM each panic. -/
theorem pem_decode_nil_panics :
    parsePrivateKey .undecodable =
      .panics "runtime error: invalid memory address or nil pointer dereference" ∧
    Generate sampleEnv (some sampleCsr) .undecodable caKeyPem 0 ["cert sign"] 0 =
      .panics "runtime error: invalid memory address or nil pointer dereference" ∧
    Generate sampleEnv (some sampleCsr) caCertPem .undecodable 0 ["cert sign"] 0 =
      .panics "runtime error: invalid memory address or nil pointer dereference" := by
  refine ⟨rfl, by decide, by decide⟩

/-- C3.  The claim says an RSA key returned by `ParsePrivateKey` reports
its modulus bit length as `Size()`.  The code stores Go's
`rsa.PrivateKey.Size()`, which is the modulus size in bytes: parsing a
PKCS#1 RSA key with a 4096-bit modulus yields a Key whose `Size()` is
512, not 4096. -/
theorem parsePrivateKey_rsa_size_in_bytes :
    parsePrivateKey rsa4096Pem =
      .ok { algorithm := .rsa, size := 512, encoded := rsa4096Pem,
            privateKey := .rsaPriv 4096 } ∧
    rsaPrivSize 4096 = 512 ∧ (512 : Int) ≠ 4096 := by
  refine ⟨by decide, by decide, by decide⟩

/-- C5.  ECDSA key-size validation accepts exactly {0, 256, 384, 521} and
returns the validation error for every other integer; RSA accepts exactly
0 and [2048, 8192] and errors otherwise; and `GenerateKey` returns the
very validation error, before any generation, when the size is invalid. -/
theorem validKeySize_boundary (size : Int) (env : Env) :
    (KeyAlgorithm.ValidKeySize .ecdsa size = .ok () ↔
      size = 0 ∨ size = 256 ∨ size = 384 ∨ size = 521) ∧
    (KeyAlgorithm.ValidKeySize .rsa size = .ok () ↔
      size = 0 ∨ (2048 ≤ size ∧ size ≤ 8192)) ∧
    (¬(size = 0 ∨ size = 256 ∨ size = 384 ∨ size = 521) →
      KeyAlgorithm.ValidKeySize .ecdsa size = .err (ecdsaSizeErr size)) ∧
    (¬(size = 0 ∨ (2048 ≤ size ∧ size ≤ 8192)) →
      KeyAlgorithm.ValidKeySize .rsa size = .err (rsaSizeErr size)) ∧
    (∀ (a : KeyAlgorithm) (m : String),
      KeyAlgorithm.ValidKeySize a size = .err m → GenerateKey env a size = .err m) := by
  refine ⟨?_, ?_, ?_, ?_, ?_⟩
  · by_cases h : size = 0 ∨ size = 256 ∨ size = 384 ∨ size = 521 <;>
      simp [KeyAlgorithm.ValidKeySize, h]
  · by_cases h : size = 0 ∨ (2048 ≤ size ∧ size ≤ 8192) <;>
      simp [KeyAlgorithm.ValidKeySize, minRSAKeySize, maxRSAKeySize, h]
  · intro h
    simp [KeyAlgorithm.ValidKeySize, h]
  · intro h
    simp [KeyAlgorithm.ValidKeySize, minRSAKeySize, maxRSAKeySize, h]
  · intro a m h
    cases a
    · simp [KeyAlgorithm.ValidKeySize] at h
    · simp [GenerateKey, h]
    · simp [GenerateKey, h]

/-- C5 witness: the spec's boundary examples 333 (ECDSA) and 2047 (RSA)
are rejected, and `GenerateKey` surfaces the validation errors. -/
theorem validKeySize_boundary_witness :
    KeyAlgorithm.ValidKeySize .ecdsa 333 = .err (ecdsaSizeErr 333) ∧
    GenerateKey sampleEnv .ecdsa 333 = .err (ecdsaSizeErr 333) ∧
    GenerateKey sampleEnv .rsa 2047 = .err (rsaSizeErr 2047) ∧
    (KeyAlgorithm.ValidKeySize .rsa 8192 = .ok () ∧
     KeyAlgorithm.ValidKeySize .ecdsa 521 = .ok ()) := by
  have h1 := (validKeySize_boundary 333 sampleEnv).2.2.1 (by decide)
  have h2 := (validKeySize_boundary 333 sampleEnv).2.2.2.2 .ecdsa _ h1
  have h3 := (validKeySize_boundary 2047 sampleEnv).2.2.2.1 (by decide)
  have h4 := (validKeySize_boundary 2047 sampleEnv).2.2.2.2 .rsa _ h3
  exact ⟨h1, h2, h4,
    (validKeySize_boundary 8192 sampleEnv).2.1.mpr (by decide),
    (validKeySize_boundary 521 sampleEnv).1.mpr (by decide)⟩

/-- C10.  Every key successfully returned by `GenerateKey` has `Size()`
equal to the resolved size, where a zero requested size resolves to the
algorithm's default (ECDSA 256, RSA 4096) before generation, and its PEM
block type is `EC PRIVATE KEY` for ECDSA and `RSA PRIVATE KEY` for RSA. -/
theorem generateKey_resolved_size_and_pem (env : Env) (a : KeyAlgorithm)
    (size : Int) (k : Key) (h : GenerateKey env a size = .ok k) :
    k.Size = (if size = 0 then a.DefaultSize else size) ∧
    k.Algorithm = a ∧
    (a = .ecdsa → pemType k.encoded = some "EC PRIVATE KEY") ∧
    (a = .rsa → pemType k.encoded = some "RSA PRIVATE KEY") := by
  unfold GenerateKey at h
  rcases hv : KeyAlgorithm.ValidKeySize a size with m | m | u <;> rw [hv] at h
  · exact absurd h (by simp)
  · exact absurd h (by simp)
  · cases a
    · exact absurd h (by simp)
    · simp only [GenerateKey.generateECDSAKey] at h
      split at h
      · cases h
      · cases h
      · split at h
        · cases h
        · split at h
          · cases h
          · obtain rfl := GoResult.ok.inj h
            simp_all [Key.Size, Key.Algorithm, pemType, pemEncodeToMemory]
    · simp only [GenerateKey.generateRSAKey] at h
      split at h
      · cases h
      · obtain rfl := GoResult.ok.inj h
        simp [Key.Size, Key.Algorithm, pemType, pemEncodeToMemory]

/-- C10 witness: `GenerateKey` with size 0 and ECDSA yields the default
size 256 and an `EC PRIVATE KEY` PEM block. -/
theorem generateKey_resolved_size_and_pem_witness :
    GenerateKey sampleEnv .ecdsa 0 = .ok sampleECKey ∧
    (sampleECKey.Size = (if (0 : Int) = 0 then KeyAlgorithm.ecdsa.DefaultSize else 0) ∧
     sampleECKey.Algorithm = .ecdsa ∧
     (KeyAlgorithm.ecdsa = .ecdsa → pemType sampleECKey.encoded = some "EC PRIVATE KEY") ∧
     (KeyAlgorithm.ecdsa = .rsa → pemType sampleECKey.encoded = some "RSA PRIVATE KEY")) :=
  ⟨by decide, generateKey_resolved_size_and_pem sampleEnv .ecdsa 0 sampleECKey (by decide)⟩

/-- The classification loop, characterized: each category is a
`filter`/`filterMap` of the input list under the precedence IP, then
e-mail, then URI, then DNS. -/
theorem parseHostsAux_spec (o : NetOracle) (hosts : List String)
    (acc : certificateHosts) :
    parseHostsAux o hosts acc =
      { DNSNames := acc.DNSNames ++ hosts.filter (fun h =>
          (o.parseIP h).isNone && (o.parseAddress h).isNone &&
            (o.parseRequestURI h).isNone),
        EmailAddresses := acc.EmailAddresses ++ hosts.filterMap (fun h =>
          if (o.parseIP h).isSome then none else o.parseAddress h),
        IPAddresses := acc.IPAddresses ++ hosts.filterMap o.parseIP,
        URIs := acc.URIs ++ hosts.filterMap (fun h =>
          if (o.parseIP h).isSome ∨ (o.parseAddress h).isSome then none
          else o.parseRequestURI h) } := by
  induction hosts generalizing acc with
  | nil => simp [parseHostsAux]
  | cons h t ih =>
    simp only [parseHostsAux]
    cases hip : o.parseIP h with
    | some ip =>
      simp only [ih]
      simp [hip, List.filterMap_cons, List.filter_cons, List.append_assoc]
    | none =>
      cases hem : o.parseAddress h with
      | some em =>
        simp only [ih]
        simp [hip, hem, List.filterMap_cons, List.filter_cons, List.append_assoc]
      | none =>
        cases hur : o.parseRequestURI h with
        | some u =>
          simp only [ih]
          simp [hip, hem, hur, List.filterMap_cons, List.filter_cons,
            List.append_assoc]
        | none =>
          simp only [ih]
          simp [hip, hem, hur, List.filterMap_cons, List.filter_cons,
            List.append_assoc]

/-- Each host lands in exactly one category: the four category sizes sum
to the input size. -/
theorem parseHosts_length (o : NetOracle) (hosts : List String) :
    (hosts.filterMap o.parseIP).length +
    (hosts.filterMap (fun h =>
      if (o.parseIP h).isSome then none else o.parseAddress h)).length +
    (hosts.filterMap (fun h =>
      if (o.parseIP h).isSome ∨ (o.parseAddress h).isSome then none
      else o.parseRequestURI h)).length +
    (hosts.filter (fun h =>
      (o.parseIP h).isNone && (o.parseAddress h).isNone &&
        (o.parseRequestURI h).isNone)).length = hosts.length := by
  induction hosts with
  | nil => simp
  | cons h t ih =>
    cases hip : o.parseIP h with
    | some ip =>
      simp only [List.filterMap_cons, List.filter_cons, hip]
      simp only [Option.isSome_some, if_true, Option.isNone_some,
        Bool.false_and, if_false, ite_true, ite_false]
      simp [List.length_cons]
      omega
    | none =>
      cases hem : o.parseAddress h with
      | some em =>
        simp only [List.filterMap_cons, List.filter_cons, hip, hem]
        simp [List.length_cons]
        omega
      | none =>
        cases hur : o.parseRequestURI h with
        | some u =>
          simp only [List.filterMap_cons, List.filter_cons, hip, hem, hur]
          simp [List.length_cons]
          omega
        | none =>
          simp only [List.filterMap_cons, List.filter_cons, hip, hem, hur]
          simp [List.length_cons]
          omega

/-- C7.  The host classifier assigns each trimmed host to exactly one
category by trying, in order, literal IP address, e-mail address,
absolute URI, then DNS name; input order is preserved within every
category (each category is a filter of the input list in order, and the
category sizes sum to the input size), and on the repository's test input
["10.1.0.1", "admin@example.com", "https://example.com", "example.com"]
the classifier yields exactly one entry per category. -/
theorem parseHosts_classification :
    (∀ (o : NetOracle) (csr : CertificateRequest),
      (csr.parseHosts o).IPAddresses = csr.hosts.filterMap o.parseIP ∧
      (csr.parseHosts o).EmailAddresses = csr.hosts.filterMap (fun h =>
        if (o.parseIP h).isSome then none else o.parseAddress h) ∧
      (csr.parseHosts o).URIs = csr.hosts.filterMap (fun h =>
        if (o.parseIP h).isSome ∨ (o.parseAddress h).isSome then none
        else o.parseRequestURI h) ∧
      (csr.parseHosts o).DNSNames = csr.hosts.filter (fun h =>
        (o.parseIP h).isNone && (o.parseAddress h).isNone &&
          (o.parseRequestURI h).isNone) ∧
      (csr.parseHosts o).IPAddresses.length +
        (csr.parseHosts o).EmailAddresses.length +
        (csr.parseHosts o).URIs.length +
        (csr.parseHosts o).DNSNames.length = csr.hosts.length) ∧
    hostTestCsr.parseHosts hostOracle =
      { DNSNames := ["example.com"], EmailAddresses := ["admin@example.com"],
        IPAddresses := ["10.1.0.1"], URIs := ["https://example.com"] } := by
  constructor
  · intro o csr
    have hs := parseHostsAux_spec o csr.hosts
      { DNSNames := [], EmailAddresses := [], IPAddresses := [], URIs := [] }
    refine ⟨?_, ?_, ?_, ?_, ?_⟩ <;>
      simp only [CertificateRequest.parseHosts, hs, List.nil_append]
    exact parseHosts_length o csr.hosts
  · decide

/-- C8.  For a request whose algorithm/size validate, parsing fails (with
the `no subject information provided` error) exactly when the trimmed
common name is empty and no `CertificateName` remains after trimming and
dropping the all-empty entries; otherwise parsing succeeds and returns
the trimmed request. -/
theorem parseCertificateRequest_subject_presence (csr : CertificateRequest)
    (hv : validateKey csr.algorithm csr.size = .ok ()) :
    (ParseCertificateRequest (some csr) = .err "no subject information provided" ↔
      (trimSpace csr.commonName = "" ∧ filteredNames csr.names = [])) ∧
    (¬(trimSpace csr.commonName = "" ∧ filteredNames csr.names = []) →
      ParseCertificateRequest (some csr) =
        .ok { csr with commonName := trimSpace csr.commonName,
                       serialNumber := trimSpace csr.serialNumber,
                       names := filteredNames csr.names,
                       hosts := csr.hosts.map trimSpace }) := by
  by_cases hc : trimSpace csr.commonName = "" ∧ filteredNames csr.names = []
  · refine ⟨?_, fun h => absurd hc h⟩
    simp [ParseCertificateRequest, hv, hc.1, hc.2]
  · refine ⟨?_, fun _ => ?_⟩
    · simp [ParseCertificateRequest, hv, hc]
    · simp [ParseCertificateRequest, hv, hc]

/-- C8 witness: the repository's `testCSREmptyNames` request (empty common
name, one all-whitespace name) fails with the subject error, and a request
carrying only a non-empty common name parses successfully. -/
theorem parseCertificateRequest_subject_presence_witness :
    validateKey csrEmptyNames.algorithm csrEmptyNames.size = .ok () ∧
    ParseCertificateRequest (some csrEmptyNames) = .err "no subject information provided" ∧
    ParseCertificateRequest (some sampleCsr) = .ok sampleCsr :=
  ⟨by decide,
   (parseCertificateRequest_subject_presence csrEmptyNames (by decide)).1.mpr (by decide),
   ((parseCertificateRequest_subject_presence sampleCsr (by decide)).2
     (by decide)).trans (by decide)⟩

/-- Shape of every successful `generateCertificateTemplate` result: the
validity window, the usage fields, the basic-constraints flags and the
link between the returned key and the template's public key. -/
theorem generateCertificateTemplate_ok_shape {env : Env}
    {csrData : Option CertificateRequest} {expires : Int} {usage : List String}
    {isCA : Bool} {now : Int} {tmpl : Certificate} {key : Key}
    (h : generateCertificateTemplate env csrData expires usage isCA now =
      .ok (tmpl, key)) :
    tmpl.notBefore = { ns := now - 5 * minuteNs, isUTC := true } ∧
    tmpl.notAfter =
      { ns := now + (if expires = 0 then DefaultCertificateExpiration else expires),
        isUTC := true } ∧
    tmpl.keyUsage = (sortUsages usage).1 ∧
    tmpl.extKeyUsage = (sortUsages usage).2 ∧
    tmpl.isCA = isCA ∧
    tmpl.basicConstraintsValid = true ∧
    key.PublicKey = .ok tmpl.publicKey := by
  unfold generateCertificateTemplate at h
  rcases hp : ParseCertificateRequest csrData with m | m | csr <;> simp only [hp] at h
  · exact absurd h (by simp)
  · exact absurd h (by simp)
  · rcases hs : env.serial with _ | serial <;> simp only [hs] at h
    · exact absurd h (by simp)
    · rcases hk : csr.generateKey env with m | m | key0 <;> simp only [hk] at h
      · exact absurd h (by simp)
      · exact absurd h (by simp)
      · split at h
        · cases h
        · rcases hpk : key0.PublicKey with m | m | pub <;> simp only [hpk] at h
          · exact absurd h (by simp)
          · exact absurd h (by simp)
          · rcases hsa : key0.SignatureAlgorithm with m | m | sig <;> simp only [hsa] at h
            · exact absurd h (by simp)
            · exact absurd h (by simp)
            · have hh := GoResult.ok.inj h
              obtain ⟨h1, h2⟩ := Prod.mk.inj hh
              subst h1
              subst h2
              exact ⟨rfl, rfl, rfl, rfl, rfl, rfl, hpk⟩

/-- C4.  Every successfully built certificate template constructed at time
`now` with requested expiration duration `expires` has validity window
`NotBefore = now - 5 minutes` and `NotAfter = now + d`, both in UTC, where
`d` is `expires` after a zero value resolves to the ten-year default. -/
theorem template_validity_window (env : Env) (csrData : Option CertificateRequest)
    (expires : Int) (usage : List String) (isCA : Bool) (now : Int)
    (tmpl : Certificate) (key : Key)
    (h : generateCertificateTemplate env csrData expires usage isCA now =
      .ok (tmpl, key)) :
    tmpl.notBefore = { ns := now - 5 * minuteNs, isUTC := true } ∧
    tmpl.notAfter =
      { ns := now + (if expires = 0 then DefaultCertificateExpiration else expires),
        isUTC := true } :=
  ⟨(generateCertificateTemplate_ok_shape h).1,
   (generateCertificateTemplate_ok_shape h).2.1⟩

/-- C4 witness: a concrete successful run with zero expiration yields
`NotBefore = now - 5 min` and `NotAfter = now +` ten years. -/
theorem template_validity_window_witness :
    generateCertificateTemplate sampleEnv (some sampleCsr) 0 ["cert sign"] false 1000 =
      .ok (sampleTemplate, sampleECKey) ∧
    (sampleTemplate.notBefore = { ns := 1000 - 5 * minuteNs, isUTC := true } ∧
     sampleTemplate.notAfter =
       { ns := 1000 + (if (0 : Int) = 0 then DefaultCertificateExpiration else 0),
         isUTC := true }) :=
  ⟨by decide,
   template_validity_window sampleEnv (some sampleCsr) 0 ["cert sign"] false 1000
     sampleTemplate sampleECKey (by decide)⟩

/-- The usage-sorting loop, characterized: the bitmask is the OR of the
recognized key-usage bits and the extended list collects, in order, the
extended-key-usage entries of names not in the key-usage table. -/
theorem sortUsagesAux_spec (usages : List String) (ku : Nat) (eku : List Nat) :
    sortUsagesAux usages ku eku =
      (usages.foldl (fun a u => a ||| (keyUsage u).getD 0) ku,
       eku ++ usages.filterMap (fun u =>
         if (keyUsage u).isSome then none else extKeyUsage u)) := by
  induction usages generalizing ku eku with
  | nil => simp [sortUsagesAux]
  | cons u rest ih =>
    simp only [sortUsagesAux]
    cases hku : keyUsage u with
    | some k =>
      simp only [ih]
      simp [hku, List.filterMap_cons]
    | none =>
      cases heku : extKeyUsage u with
      | some e =>
        simp only [ih]
        simp [hku, heku, List.filterMap_cons, List.append_assoc]
      | none =>
        simp only [ih]
        simp [hku, heku, List.filterMap_cons]

/-- C6.  Usage resolution ignores unrecognized names (the bitmask only ORs
recognized key-usage bits — unrecognized names contribute the identity —
and the extended list only collects recognized extended names, in input
order, duplicates allowed, with "s/mime" mapping to email protection),
and template construction fails with the `no key usage(s) specified`
error exactly when the resolved bitmask is zero and the extended list is
empty. -/
theorem usage_resolution (env : Env) (csrData : Option CertificateRequest)
    (csr : CertificateRequest) (key : Key) (serial : Int)
    (expires now : Int) (usage us : List String) (isCA : Bool)
    (hparse : ParseCertificateRequest csrData = .ok csr)
    (hserial : env.serial = some serial)
    (hkey : csr.generateKey env = .ok key) :
    ((sortUsages us).1 = us.foldl (fun a u => a ||| (keyUsage u).getD 0) 0) ∧
    ((sortUsages us).2 = us.filterMap (fun u =>
      if (keyUsage u).isSome then none else extKeyUsage u)) ∧
    extKeyUsage "s/mime" = some x509.ExtKeyUsageEmailProtection ∧
    (generateCertificateTemplate env csrData expires usage isCA now =
        .err "no key usage(s) specified" ↔
      ((sortUsages usage).1 = 0 ∧ (sortUsages usage).2 = [])) := by
  refine ⟨?_, ?_, by decide, ?_⟩
  · rw [sortUsages, sortUsagesAux_spec]
  · rw [sortUsages, sortUsagesAux_spec]
    simp
  · unfold generateCertificateTemplate
    simp only [hparse, hserial, hkey]
    by_cases hc : (sortUsages usage).1 = 0 ∧ (sortUsages usage).2 = []
    · simp only [hc.1, hc.2]
      simp
    · simp only [if_neg hc]
      constructor
      · intro h
        rcases hpk : key.PublicKey with m | m | pub <;> simp only [hpk] at h
        · cases h
        · exact absurd hpk (publicKey_not_err key m)
        · rcases hsa : key.SignatureAlgorithm with m | m | sig <;>
            simp only [hsa] at h
          · cases h
          · exact absurd hsa (signatureAlgorithm_not_err key m)
          · cases h
      · intro h
        exact absurd h hc

/-- C6 witness: with a concrete parsed request, serial and key, an empty
usage list resolves to (0, []) and template construction fails with the
usage error. -/
theorem usage_resolution_witness :
    generateCertificateTemplate sampleEnv (some sampleCsr) 0 [] false 0 =
      .err "no key usage(s) specified" :=
  ((usage_resolution sampleEnv (some sampleCsr) sampleCsr sampleECKey 7 0 0 []
    ["s/mime", "bogus"] false (by decide) rfl (by decide)).2.2.2).mpr (by decide)

/-- C9.  Every successful `GenerateCA` run builds its template with
`IsCA = true`, key usage exactly `CertSign ||| CRLSign`, an empty
extended-key-usage list, and signs the template with itself: the parent
passed to certificate creation is the template itself, the signer is the
freshly generated key's own private key, and the embedded public key is
that key's public half. -/
theorem generateCA_self_signed (env : Env) (csrData : Option CertificateRequest)
    (expires now : Int) (sc : SignedCert) (key : Key)
    (h : GenerateCA env csrData expires now = .ok (sc, key)) :
    sc.template.isCA = true ∧
    sc.template.keyUsage = (x509.KeyUsageCertSign ||| x509.KeyUsageCRLSign) ∧
    sc.template.extKeyUsage = [] ∧
    sc.parent = sc.template ∧
    sc.signer = key.privateKey ∧
    key.PublicKey = .ok sc.pub := by
  unfold GenerateCA at h
  rcases ht : generateCertificateTemplate env csrData expires
      ["cert sign", "crl sign"] true now with m | m | pr <;> simp only [ht] at h
  · exact absurd h (by simp)
  · exact absurd h (by simp)
  · obtain ⟨tmpl, key0⟩ := pr
    have hshape := generateCertificateTemplate_ok_shape ht
    rcases hpk : key0.PublicKey with m | m | pub <;> simp only [hpk] at h
    · exact absurd h (by simp)
    · exact absurd h (by simp)
    · rcases hcc : createCertificate env tmpl tmpl pub key0.privateKey
          with m | m | cert <;> simp only [hcc] at h
      · exact absurd h (by simp)
      · exact absurd h (by simp)
      · have hh := GoResult.ok.inj h
        obtain ⟨h1, h2⟩ := Prod.mk.inj hh
        subst h1
        subst h2
        unfold createCertificate at hcc
        split at hcc
        · have hc2 := GoResult.ok.inj hcc
          subst hc2
          refine ⟨hshape.2.2.2.2.1, ?_, ?_, rfl, rfl, hpk⟩
          · rw [hshape.2.2.1]
            decide
          · rw [hshape.2.2.2.1]
            decide
        · cases hcc

/-- C9 witness: a concrete successful `GenerateCA` run produces a
self-signed CA record with the CA usage set. -/
theorem generateCA_self_signed_witness :
    GenerateCA sampleEnv (some sampleCsr) 0 1000 = .ok (sampleCASigned, sampleECKey) ∧
    (sampleCASigned.template.isCA = true ∧
     sampleCASigned.template.keyUsage = (x509.KeyUsageCertSign ||| x509.KeyUsageCRLSign) ∧
     sampleCASigned.template.extKeyUsage = [] ∧
     sampleCASigned.parent = sampleCASigned.template ∧
     sampleCASigned.signer = sampleECKey.privateKey ∧
     sampleECKey.PublicKey = .ok sampleCASigned.pub) :=
  ⟨by decide,
   generateCA_self_signed sampleEnv (some sampleCsr) 0 1000 sampleCASigned
     sampleECKey (by decide)⟩

end Limepacker
